import Mathlib

/-!
Verification of the line-framing, message-decoding, read-loop and transport
layers of the claude-agent-sdk-go repository, as a shallow embedding.

JSON records are modelled at value level: `JsonValue` is the result of a
successful syntactic parse, and `ByteData` additionally marks empty input and
syntactically malformed input, the failure modes of `encoding/json` relevant
here.  Number payloads are carried as integers; none of the verified
properties inspects a numeric payload, only its JSON kind.  Byte streams are
lists of naturals (byte values); only the newline byte 10 and the carriage
return byte 13 are ever inspected by the framing code.
-/

namespace ClaudeSDK

/-! ## JSON value model -/

mutual

/-- A parsed JSON value (the generic representation used by `encoding/json`). -/
inductive JsonValue : Type where
  | null : JsonValue
  | bool (b : Bool) : JsonValue
  | num (n : Int) : JsonValue
  | str (s : String) : JsonValue
  | arr (elems : JsonArray) : JsonValue
  | obj (fields : JsonObject) : JsonValue
  deriving DecidableEq

/-- A JSON array, as a sequence of values. -/
inductive JsonArray : Type where
  | nil : JsonArray
  | cons (head : JsonValue) (tail : JsonArray) : JsonArray
  deriving DecidableEq

/-- A JSON object, as a sequence of key/value fields (keys unique, as
produced by the CLI). -/
inductive JsonObject : Type where
  | nil : JsonObject
  | cons (key : String) (val : JsonValue) (tail : JsonObject) : JsonObject
  deriving DecidableEq

end

/-- Raw bytes handed to a decoder: empty input, syntactically invalid JSON,
or a successfully parsed value. -/
inductive ByteData : Type where
  | empty : ByteData
  | malformed : ByteData
  | value (v : JsonValue) : ByteData
  deriving DecidableEq

/-- The JSON kind name, as reported in Go unmarshal type errors. -/
def kindOf : JsonValue → String
  | .null => "null"
  | .bool _ => "bool"
  | .num _ => "number"
  | .str _ => "string"
  | .arr _ => "array"
  | .obj _ => "object"

/-- Errors produced by the `encoding/json` machinery itself. -/
inductive GoJsonError : Type where
  | cannotUnmarshal (jsonKind : String) (goType : String) : GoJsonError
  | syntaxError : GoJsonError
  | endOfInput : GoJsonError
  deriving DecidableEq

/-- Field lookup in a JSON object. -/
def lookupField (fields : JsonObject) (name : String) : Option JsonValue :=
  match fields with
  | .nil => none
  | .cons k v rest => if k = name then some v else lookupField rest name

/-! ### Go struct-field unmarshal primitives

Each helper captures how `json.Unmarshal` fills one struct field of the given
Go type from a JSON object: an absent field keeps the zero value, an explicit
JSON `null` has no effect (also keeping the zero value, or a nil pointer),
a value of the right kind is stored, and any other kind is a type error. -/

/-- Decoding a JSON object field into a Go `string` field. -/
def goStringField (fields : JsonObject) (name : String) : Except GoJsonError String :=
  match lookupField fields name with
  | none => .ok ""
  | some .null => .ok ""
  | some (.str s) => .ok s
  | some v => .error (.cannotUnmarshal (kindOf v) "string")

/-- Decoding a JSON object field into a Go `*string` field. -/
def goOptStringField (fields : JsonObject) (name : String) :
    Except GoJsonError (Option String) :=
  match lookupField fields name with
  | none => .ok none
  | some .null => .ok none
  | some (.str s) => .ok (some s)
  | some v => .error (.cannotUnmarshal (kindOf v) "string")

/-- Decoding a JSON object field into a Go `bool` field. -/
def goBoolField (fields : JsonObject) (name : String) : Except GoJsonError Bool :=
  match lookupField fields name with
  | none => .ok false
  | some .null => .ok false
  | some (.bool b) => .ok b
  | some v => .error (.cannotUnmarshal (kindOf v) "bool")

/-- Decoding a JSON object field into a Go `*bool` field. -/
def goOptBoolField (fields : JsonObject) (name : String) :
    Except GoJsonError (Option Bool) :=
  match lookupField fields name with
  | none => .ok none
  | some .null => .ok none
  | some (.bool b) => .ok (some b)
  | some v => .error (.cannotUnmarshal (kindOf v) "bool")

/-- Decoding a JSON object field into a Go `int` field. -/
def goIntField (fields : JsonObject) (name : String) : Except GoJsonError Int :=
  match lookupField fields name with
  | none => .ok 0
  | some .null => .ok 0
  | some (.num n) => .ok n
  | some v => .error (.cannotUnmarshal (kindOf v) "int")

/-- Decoding a JSON object field into a Go `*float64` field (payload kept as
the modelled number). -/
def goOptNumField (fields : JsonObject) (name : String) :
    Except GoJsonError (Option Int) :=
  match lookupField fields name with
  | none => .ok none
  | some .null => .ok none
  | some (.num n) => .ok (some n)
  | some v => .error (.cannotUnmarshal (kindOf v) "float64")

/-- Decoding a JSON object field into a Go map field
(`nil` map for absent or null, modelled as `none`). -/
def goObjField (fields : JsonObject) (name : String) :
    Except GoJsonError (Option JsonObject) :=
  match lookupField fields name with
  | none => .ok none
  | some .null => .ok none
  | some (.obj o) => .ok (some o)
  | some v => .error (.cannotUnmarshal (kindOf v) "map")

/-- Decoding a JSON object field into a Go `interface` field: any present
non-null value is stored as is. -/
def goAnyField (fields : JsonObject) (name : String) : Option JsonValue :=
  match lookupField fields name with
  | none => none
  | some .null => none
  | some v => some v

/-- Decoding a JSON object field into a Go slice of raw messages
(absent and null both give the nil slice, modelled as the empty array). -/
def goRawArrayField (fields : JsonObject) (name : String) :
    Except GoJsonError JsonArray :=
  match lookupField fields name with
  | none => .ok .nil
  | some .null => .ok .nil
  | some (.arr xs) => .ok xs
  | some v => .error (.cannotUnmarshal (kindOf v) "array")

/-! ## SDK error taxonomy

The repository wraps failures in error values built by constructors such as
`NewMessageParseErrorWithType`, `NewJSONDecodeErrorWithCause` and
`NewCLIConnectionError`; each variant below records the constructor used and
the data passed at the call sites embedded here. -/

/-- The cause recorded inside a wrapping SDK error. -/
inductive ErrorCause : Type where
  | goJson (e : GoJsonError) : ErrorCause
  | wrapped (message : String) : ErrorCause
  | literal (message : String) : ErrorCause
  deriving DecidableEq

/-- SDK-level error values, by constructor family. -/
inductive SDKError : Type where
  | messageParseError (message : String) (msgType : Option String) : SDKError
  | jsonDecodeError (message : String) (raw : ByteData) (cause : Option ErrorCause) : SDKError
  | cliConnectionError (message : String) : SDKError
  | processError (message : String) (exitCode : Option Int) : SDKError
  deriving DecidableEq

/-- The Go predicate `types.IsMessageParseError`. -/
def IsMessageParseError : SDKError → Bool
  | .messageParseError _ _ => true
  | _ => false

/-- The Go predicate `types.IsJSONDecodeError`. -/
def IsJSONDecodeError : SDKError → Bool
  | .jsonDecodeError _ _ _ => true
  | _ => false

/-- The message text of an SDK error, used when one error is recorded as the
cause of another. -/
def sdkErrorMessage : SDKError → String
  | .messageParseError m _ => m
  | .jsonDecodeError m _ _ => m
  | .cliConnectionError m => m
  | .processError m _ => m

/-! ## Type discriminator extraction -/

/-- The distinct failures of `extractType` in `internal/message_parser.go`:
the wrapped unmarshal failure, the missing-field error and the
not-a-string error are three different error values. -/
inductive ExtractTypeError : Type where
  | unmarshalFailed (cause : GoJsonError) : ExtractTypeError
  | missingTypeField : ExtractTypeError
  | typeFieldNotString : ExtractTypeError
  deriving DecidableEq

/-- `extractType` from `internal/message_parser.go`: unmarshals the record
into a generic map and then requires a `type` key holding a string.  A JSON
null record unmarshals to a nil map, so its `type` lookup fails as missing;
an explicit `type: null` key is present in the map but fails the string
assertion. -/
def extractType (data : ByteData) : Except ExtractTypeError String :=
  match data with
  | .empty => .error (.unmarshalFailed .endOfInput)
  | .malformed => .error (.unmarshalFailed .syntaxError)
  | .value (.obj fields) =>
    match lookupField fields "type" with
    | none => .error .missingTypeField
    | some (.str s) => .ok s
    | some _ => .error .typeFieldNotString
  | .value .null => .error .missingTypeField
  | .value v => .error (.unmarshalFailed (.cannotUnmarshal (kindOf v) "map"))

/-- The anonymous `struct Type string` probe used by `UnmarshalMessage` and
`UnmarshalContentBlock` to read the discriminator: a JSON null record and an
absent or null `type` field all leave the zero value, an empty string. -/
def unmarshalTypeField (data : ByteData) : Except GoJsonError String :=
  match data with
  | .empty => .error .endOfInput
  | .malformed => .error .syntaxError
  | .value (.obj fields) => goStringField fields "type"
  | .value .null => .ok ""
  | .value v => .error (.cannotUnmarshal (kindOf v) "struct")

/-! ## Content blocks (types/content_blocks source) -/

/-- The four content block shapes. -/
inductive ContentBlock : Type where
  | text (type : String) (text : String) : ContentBlock
  | thinking (type : String) (thinking : String) (signature : String) : ContentBlock
  | toolUse (type : String) (id : String) (name : String)
      (input : Option JsonObject) : ContentBlock
  | toolResult (type : String) (toolUseID : String) (content : Option JsonValue)
      (isError : Option Bool) : ContentBlock
  deriving DecidableEq

/-- Plain struct unmarshal of `TextBlock`. -/
def unmarshalTextBlock (data : ByteData) : Except GoJsonError ContentBlock :=
  match data with
  | .empty => .error .endOfInput
  | .malformed => .error .syntaxError
  | .value .null => .ok (.text "" "")
  | .value (.obj fields) => do
    let ty ← goStringField fields "type"
    let tx ← goStringField fields "text"
    .ok (.text ty tx)
  | .value v => .error (.cannotUnmarshal (kindOf v) "struct")

/-- Plain struct unmarshal of `ThinkingBlock`. -/
def unmarshalThinkingBlock (data : ByteData) : Except GoJsonError ContentBlock :=
  match data with
  | .empty => .error .endOfInput
  | .malformed => .error .syntaxError
  | .value .null => .ok (.thinking "" "" "")
  | .value (.obj fields) => do
    let ty ← goStringField fields "type"
    let th ← goStringField fields "thinking"
    let sg ← goStringField fields "signature"
    .ok (.thinking ty th sg)
  | .value v => .error (.cannotUnmarshal (kindOf v) "struct")

/-- Plain struct unmarshal of `ToolUseBlock`. -/
def unmarshalToolUseBlock (data : ByteData) : Except GoJsonError ContentBlock :=
  match data with
  | .empty => .error .endOfInput
  | .malformed => .error .syntaxError
  | .value .null => .ok (.toolUse "" "" "" none)
  | .value (.obj fields) => do
    let ty ← goStringField fields "type"
    let bid ← goStringField fields "id"
    let nm ← goStringField fields "name"
    let inp ← goObjField fields "input"
    .ok (.toolUse ty bid nm inp)
  | .value v => .error (.cannotUnmarshal (kindOf v) "struct")

/-- Plain struct unmarshal of `ToolResultBlock`. -/
def unmarshalToolResultBlock (data : ByteData) : Except GoJsonError ContentBlock :=
  match data with
  | .empty => .error .endOfInput
  | .malformed => .error .syntaxError
  | .value .null => .ok (.toolResult "" "" none none)
  | .value (.obj fields) => do
    let ty ← goStringField fields "type"
    let tid ← goStringField fields "tool_use_id"
    let ie ← goOptBoolField fields "is_error"
    .ok (.toolResult ty tid (goAnyField fields "content") ie)
  | .value v => .error (.cannotUnmarshal (kindOf v) "struct")

/-- `types.UnmarshalContentBlock`: probe the `type` discriminator, dispatch
to the matching block shape, and reject every other discriminator with a
`MessageParseError` carrying the offending type string. -/
def UnmarshalContentBlock (data : ByteData) : Except SDKError ContentBlock :=
  match unmarshalTypeField data with
  | .error e =>
    .error (.jsonDecodeError "failed to determine content block type" data (some (.goJson e)))
  | .ok t =>
    if t = "text" then
      match unmarshalTextBlock data with
      | .error e =>
        .error (.jsonDecodeError "failed to unmarshal text block" data (some (.goJson e)))
      | .ok b => .ok b
    else if t = "thinking" then
      match unmarshalThinkingBlock data with
      | .error e =>
        .error (.jsonDecodeError "failed to unmarshal thinking block" data (some (.goJson e)))
      | .ok b => .ok b
    else if t = "tool_use" then
      match unmarshalToolUseBlock data with
      | .error e =>
        .error (.jsonDecodeError "failed to unmarshal tool_use block" data (some (.goJson e)))
      | .ok b => .ok b
    else if t = "tool_result" then
      match unmarshalToolResultBlock data with
      | .error e =>
        .error (.jsonDecodeError "failed to unmarshal tool_result block" data (some (.goJson e)))
      | .ok b => .ok b
    else .error (.messageParseError "unknown content block type" (some t))

/-! ## Messages (types/messages source) -/

/-- The union type of the `Content` field of a user message: a plain string
or a list of content blocks. -/
inductive UserContent : Type where
  | ofString (s : String) : UserContent
  | ofBlocks (blocks : List ContentBlock) : UserContent
  deriving DecidableEq

/-- The five message shapes decoded by `types.UnmarshalMessage`.  The
`totalCostUSD` payload (a Go `*float64`) is carried as the modelled number. -/
inductive Message : Type where
  | user (type : String) (content : UserContent)
      (parentToolUseID : Option String) : Message
  | assistant (type : String) (content : List ContentBlock) (model : String)
      (parentToolUseID : Option String) : Message
  | system (type : String) (subtype : String) (data : Option JsonObject) : Message
  | result (type : String) (subtype : String) (durationMs : Int)
      (durationAPIMs : Int) (isError : Bool) (numTurns : Int) (sessionID : String)
      (totalCostUSD : Option Int) (usage : Option JsonObject)
      (result : Option String) : Message
  | streamEvent (type : String) (uuid : String) (sessionID : String)
      (event : Option JsonObject) (parentToolUseID : Option String) : Message
  deriving DecidableEq

/-- Decoding each element of a raw JSON array through
`UnmarshalContentBlock`, failing on the first bad element (as the loops in
the user and assistant custom unmarshalers do). -/
def decodeBlockList (xs : JsonArray) : Except SDKError (List ContentBlock) :=
  match xs with
  | .nil => .ok []
  | .cons x rest => do
    let b ← UnmarshalContentBlock (.value x)
    let bs ← decodeBlockList rest
    .ok (b :: bs)

/-- The failure modes of the custom `UnmarshalJSON` of user and assistant
messages: a Go error from the auxiliary struct decode, a propagated content
block decode error, or the content-shape error of the user probe. -/
inductive CustomDecodeError : Type where
  | auxErr (e : GoJsonError) : CustomDecodeError
  | blockErr (e : SDKError) : CustomDecodeError
  | contentShapeErr : CustomDecodeError
  deriving DecidableEq

/-- `UserMessage.UnmarshalJSON`: the auxiliary struct captures `content` as a
raw message, then a string decode is attempted first and an array decode
second.  A JSON `null` content succeeds on the string attempt because a Go
unmarshal of null into a string has no effect and leaves the zero string;
an absent content and every other shape fail both attempts. -/
def unmarshalUserMessage (data : ByteData) : Except CustomDecodeError Message :=
  match data with
  | .empty => .error (.auxErr .endOfInput)
  | .malformed => .error (.auxErr .syntaxError)
  | .value .null => .error .contentShapeErr
  | .value (.obj fields) =>
    match goStringField fields "type" with
    | .error e => .error (.auxErr e)
    | .ok ty =>
      match goOptStringField fields "parent_tool_use_id" with
      | .error e => .error (.auxErr e)
      | .ok ptid =>
        match lookupField fields "content" with
        | some (.str s) => .ok (.user ty (.ofString s) ptid)
        | some .null => .ok (.user ty (.ofString "") ptid)
        | some (.arr xs) =>
          match decodeBlockList xs with
          | .error e => .error (.blockErr e)
          | .ok bs => .ok (.user ty (.ofBlocks bs) ptid)
        | _ => .error .contentShapeErr
  | .value v => .error (.auxErr (.cannotUnmarshal (kindOf v) "struct"))

/-- `AssistantMessage.UnmarshalJSON`: the auxiliary struct captures `content`
as a slice of raw messages and decodes each element as a content block. -/
def unmarshalAssistantMessage (data : ByteData) : Except CustomDecodeError Message :=
  match data with
  | .empty => .error (.auxErr .endOfInput)
  | .malformed => .error (.auxErr .syntaxError)
  | .value .null => .ok (.assistant "" [] "" none)
  | .value (.obj fields) =>
    match goStringField fields "type" with
    | .error e => .error (.auxErr e)
    | .ok ty =>
      match goStringField fields "model" with
      | .error e => .error (.auxErr e)
      | .ok md =>
        match goOptStringField fields "parent_tool_use_id" with
        | .error e => .error (.auxErr e)
        | .ok ptid =>
          match goRawArrayField fields "content" with
          | .error e => .error (.auxErr e)
          | .ok raws =>
            match decodeBlockList raws with
            | .error e => .error (.blockErr e)
            | .ok bs => .ok (.assistant ty bs md ptid)
  | .value v => .error (.auxErr (.cannotUnmarshal (kindOf v) "struct"))

/-- Plain struct unmarshal of `SystemMessage`. -/
def unmarshalSystemMessage (data : ByteData) : Except GoJsonError Message :=
  match data with
  | .empty => .error .endOfInput
  | .malformed => .error .syntaxError
  | .value .null => .ok (.system "" "" none)
  | .value (.obj fields) => do
    let ty ← goStringField fields "type"
    let st ← goStringField fields "subtype"
    let dt ← goObjField fields "data"
    .ok (.system ty st dt)
  | .value v => .error (.cannotUnmarshal (kindOf v) "struct")

/-- Plain struct unmarshal of `ResultMessage`. -/
def unmarshalResultMessage (data : ByteData) : Except GoJsonError Message :=
  match data with
  | .empty => .error .endOfInput
  | .malformed => .error .syntaxError
  | .value .null => .ok (.result "" "" 0 0 false 0 "" none none none)
  | .value (.obj fields) => do
    let ty ← goStringField fields "type"
    let st ← goStringField fields "subtype"
    let dm ← goIntField fields "duration_ms"
    let da ← goIntField fields "duration_api_ms"
    let ie ← goBoolField fields "is_error"
    let nt ← goIntField fields "num_turns"
    let sid ← goStringField fields "session_id"
    let tc ← goOptNumField fields "total_cost_usd"
    let us ← goObjField fields "usage"
    let rs ← goOptStringField fields "result"
    .ok (.result ty st dm da ie nt sid tc us rs)
  | .value v => .error (.cannotUnmarshal (kindOf v) "struct")

/-- Plain struct unmarshal of `StreamEvent`. -/
def unmarshalStreamEvent (data : ByteData) : Except GoJsonError Message :=
  match data with
  | .empty => .error .endOfInput
  | .malformed => .error .syntaxError
  | .value .null => .ok (.streamEvent "" "" "" none none)
  | .value (.obj fields) => do
    let ty ← goStringField fields "type"
    let uu ← goStringField fields "uuid"
    let sid ← goStringField fields "session_id"
    let ev ← goObjField fields "event"
    let ptid ← goOptStringField fields "parent_tool_use_id"
    .ok (.streamEvent ty uu sid ev ptid)
  | .value v => .error (.cannotUnmarshal (kindOf v) "struct")

/-- Converting a custom unmarshal failure to the cause recorded by
`NewJSONDecodeErrorWithCause` in `UnmarshalMessage`. -/
def causeOfCustomErr : CustomDecodeError → ErrorCause
  | .auxErr e => .goJson e
  | .blockErr e => .wrapped (sdkErrorMessage e)
  | .contentShapeErr => .literal "content must be string or array of content blocks"

/-- `types.UnmarshalMessage`: probe the top-level `type` discriminator and
dispatch to the matching message shape.  Only the five content shapes are
known; every other discriminator string, including `control_request` and
`control_response`, falls to the default branch and fails with a
`MessageParseError` carrying the offending type string. -/
def UnmarshalMessage (data : ByteData) : Except SDKError Message :=
  match unmarshalTypeField data with
  | .error e =>
    .error (.jsonDecodeError "failed to determine message type" data (some (.goJson e)))
  | .ok t =>
    if t = "user" then
      match unmarshalUserMessage data with
      | .error e =>
        .error (.jsonDecodeError "failed to unmarshal user message" data
          (some (causeOfCustomErr e)))
      | .ok m => .ok m
    else if t = "assistant" then
      match unmarshalAssistantMessage data with
      | .error e =>
        .error (.jsonDecodeError "failed to unmarshal assistant message" data
          (some (causeOfCustomErr e)))
      | .ok m => .ok m
    else if t = "system" then
      match unmarshalSystemMessage data with
      | .error e =>
        .error (.jsonDecodeError "failed to unmarshal system message" data
          (some (.goJson e)))
      | .ok m => .ok m
    else if t = "result" then
      match unmarshalResultMessage data with
      | .error e =>
        .error (.jsonDecodeError "failed to unmarshal result message" data
          (some (.goJson e)))
      | .ok m => .ok m
    else if t = "stream_event" then
      match unmarshalStreamEvent data with
      | .error e =>
        .error (.jsonDecodeError "failed to unmarshal stream event" data
          (some (.goJson e)))
      | .ok m => .ok m
    else .error (.messageParseError "unknown message type" (some t))

/-! ## internal/message_parser.go -/

/-- `internal.ParseMessage`: reject empty input, then delegate to
`UnmarshalMessage`; an error that is already a `MessageParseError` or a
`JSONDecodeError` is passed through unchanged, anything else would be wrapped
with the extracted type (that branch is unreachable for the errors
`UnmarshalMessage` produces). -/
def ParseMessage (data : ByteData) : Except SDKError Message :=
  if data = .empty then .error (.messageParseError "cannot parse empty message data" none)
  else
    match UnmarshalMessage data with
    | .ok m => .ok m
    | .error e =>
      if IsMessageParseError e || IsJSONDecodeError e then .error e
      else
        .error (.messageParseError "failed to parse message"
          (some ((extractType data).toOption.getD "")))

/-- `internal.ParseContentBlock`: reject empty input, then delegate to
`UnmarshalContentBlock` with the same pass-through rule as `ParseMessage`. -/
def ParseContentBlock (data : ByteData) : Except SDKError ContentBlock :=
  if data = .empty then
    .error (.messageParseError "cannot parse empty content block data" none)
  else
    match UnmarshalContentBlock data with
    | .ok b => .ok b
    | .error e =>
      if IsMessageParseError e || IsJSONDecodeError e then .error e
      else
        .error (.messageParseError "failed to parse content block"
          (some ((extractType data).toOption.getD "")))

/-- The error of `internal.ParseContentBlocks`: the failing zero-based index
together with the wrapped element error. -/
inductive ContentBlocksError : Type where
  | atIndex (i : Nat) (cause : SDKError) : ContentBlocksError
  deriving DecidableEq

/-- The indexed loop body of `internal.ParseContentBlocks`. -/
def parseContentBlocksAux (i : Nat) (blocks : List ByteData) :
    Except ContentBlocksError (List ContentBlock) :=
  match blocks with
  | [] => .ok []
  | d :: rest =>
    match ParseContentBlock d with
    | .error e => .error (.atIndex i e)
    | .ok b =>
      match parseContentBlocksAux (i + 1) rest with
      | .error e => .error e
      | .ok bs => .ok (b :: bs)

/-- `internal.ParseContentBlocks`: decode a sequence of raw blocks, failing
fast on the first bad element and naming its zero-based index. -/
def ParseContentBlocks (blocks : List ByteData) : Except ContentBlocksError (List ContentBlock) :=
  parseContentBlocksAux 0 blocks

/-! ## Line framing (internal/transport/stream.go)

`JSONLineReader` wraps a `bufio.Scanner` over the raw stream: the reader is
created with an initial 64 KiB buffer and the configured maximum token size.
The scanner splits on the newline byte 10, drops one trailing carriage
return byte 13 from a token, and fails with its too-long error exactly when
a token has not been completed after the buffer has grown to its limit; the
buffer starts at 64 KiB and only grows when the current size is below the
maximum token size, so its reachable capacity is the larger of 64 KiB and
the configured maximum.  The model assumes the underlying reader reports end
of stream on a separate read call after the last data, as byte readers and
pipes do. -/

/-- `DefaultMaxBufferSize` from `stream.go`: 1 MiB. -/
def DefaultMaxBufferSize : Nat := 1024 * 1024

/-- The initial scanner buffer capacity allocated by
`NewJSONLineReaderWithSize`: 64 KiB. -/
def initialBufferSize : Nat := 64 * 1024

/-- The scanner buffer capacity reachable for a configured maximum: the
buffer starts at 64 KiB and grows only while below the configured maximum. -/
def effectiveMaxSize (maxSize : Nat) : Nat := max maxSize initialBufferSize

/-- The `dropCR` step of `bufio.ScanLines`: remove one trailing carriage
return byte from a token. -/
def dropCR (bs : List Nat) : List Nat :=
  match bs.getLast? with
  | some 13 => bs.dropLast
  | _ => bs

/-- Index of the first newline byte in the stream, if any. -/
def firstNewlineIdx (bs : List Nat) : Option Nat :=
  match bs with
  | [] => none
  | b :: rest =>
    if b = 10 then some 0
    else
      match firstNewlineIdx rest with
      | some i => some (i + 1)
      | none => none

/-- Outcome of one `ReadLine` call: a record together with the remaining
stream, the too-long failure, or end of stream. -/
inductive ReadLineResult : Type where
  | line (record : List Nat) (rest : List Nat) : ReadLineResult
  | tooLongError : ReadLineResult
  | endOfStream : ReadLineResult
  deriving DecidableEq

/-- `JSONLineReader.ReadLine` on the remaining stream contents: a newline
found within the reachable buffer capacity delivers the preceding bytes as
the record; a stream that ends without a newline delivers the remaining
bytes if it is short enough and nonempty; the scanner fails with the
too-long error when the buffer fills without completing a token. -/
def ReadLine (maxSize : Nat) (input : List Nat) : ReadLineResult :=
  match firstNewlineIdx input with
  | some i =>
    if i < effectiveMaxSize maxSize then .line (dropCR (input.take i)) (input.drop (i + 1))
    else .tooLongError
  | none =>
    if effectiveMaxSize maxSize ≤ input.length then .tooLongError
    else if input.length = 0 then .endOfStream
    else .line (dropCR input) []

/-- The error value `ReadLine` builds for a scanner too-long failure:
`NewJSONDecodeErrorWithRaw` with an empty raw payload. -/
def framingError : SDKError :=
  .jsonDecodeError "JSON line exceeded maximum buffer size" .empty none

/-- `JSONLineWriter.WriteLine`: append the payload and exactly one newline
terminator to the output stream and flush. -/
def WriteLine (stream : List Nat) (data : List Nat) : List Nat :=
  stream ++ data ++ [10]

/-- Writing a sequence of records in order with `WriteLine`, starting from
an empty stream. -/
def writeAllLines (records : List (List Nat)) : List Nat :=
  records.foldl WriteLine []

theorem firstNewlineIdx_lt_length {bs : List Nat} {i : Nat}
    (h : firstNewlineIdx bs = some i) : i < bs.length := by
  induction bs generalizing i with
  | nil => simp [firstNewlineIdx] at h
  | cons b rest ih =>
    simp only [firstNewlineIdx] at h
    by_cases hb : b = 10
    · simp [hb] at h
      simp [List.length_cons]
      omega
    · simp only [hb, if_false] at h
      cases hr : firstNewlineIdx rest with
      | none => rw [hr] at h; simp at h
      | some j =>
        rw [hr] at h
        simp at h
        have := ih hr
        simp [List.length_cons]
        omega

theorem ReadLine_rest_length {maxSize : Nat} {input r rest : List Nat}
    (h : ReadLine maxSize input = .line r rest) : rest.length < input.length := by
  cases hidx : firstNewlineIdx input with
  | some i =>
    simp only [ReadLine, hidx] at h
    split_ifs at h with hlt
    all_goals
      first
      | exact ReadLineResult.noConfusion h
      | (injection h with h1 h2
         have hi := firstNewlineIdx_lt_length hidx
         subst h2
         simp [List.length_drop]
         omega)
  | none =>
    simp only [ReadLine, hidx] at h
    split_ifs at h with hge hz
    all_goals
      first
      | exact ReadLineResult.noConfusion h
      | (injection h with h1 h2
         subst h2
         simp
         omega)

/-- Reading records with repeated `ReadLine` calls until end of stream,
failing if any call fails. -/
def ReadAllLines (maxSize : Nat) (input : List Nat) :
    Except SDKError (List (List Nat)) :=
  match h : ReadLine maxSize input with
  | .line r rest =>
    match ReadAllLines maxSize rest with
    | .error e => .error e
    | .ok rs => .ok (r :: rs)
  | .tooLongError => .error framingError
  | .endOfStream => .ok []
termination_by input.length
decreasing_by exact ReadLine_rest_length h

instance {ε α : Type} [DecidableEq ε] [DecidableEq α] : DecidableEq (Except ε α) := fun a b =>
  match a, b with
  | .ok x, .ok y =>
    if h : x = y then .isTrue (by rw [h]) else .isFalse (by intro hc; injection hc; contradiction)
  | .error x, .error y =>
    if h : x = y then .isTrue (by rw [h]) else .isFalse (by intro hc; injection hc; contradiction)
  | .ok _, .error _ => .isFalse (by intro hc; exact Except.noConfusion hc)
  | .error _, .ok _ => .isFalse (by intro hc; exact Except.noConfusion hc)

theorem ReadAllLines_line {maxSize : Nat} {input r rest : List Nat}
    (h : ReadLine maxSize input = .line r rest) :
    ReadAllLines maxSize input =
      match ReadAllLines maxSize rest with
      | .error e => .error e
      | .ok rs => .ok (r :: rs) := by
  rw [ReadAllLines]
  split
  next r2 rest2 h2 =>
    rw [h] at h2
    injection h2 with e1 e2
    subst e1
    subst e2
    rfl
  next h2 => rw [h] at h2; exact ReadLineResult.noConfusion h2
  next h2 => rw [h] at h2; exact ReadLineResult.noConfusion h2

theorem ReadAllLines_tooLong {maxSize : Nat} {input : List Nat}
    (h : ReadLine maxSize input = .tooLongError) :
    ReadAllLines maxSize input = .error framingError := by
  rw [ReadAllLines]
  split
  next r2 rest2 h2 => rw [h] at h2; exact ReadLineResult.noConfusion h2
  next h2 => rfl
  next h2 => rw [h] at h2; exact ReadLineResult.noConfusion h2

theorem ReadAllLines_eos {maxSize : Nat} {input : List Nat}
    (h : ReadLine maxSize input = .endOfStream) :
    ReadAllLines maxSize input = .ok [] := by
  rw [ReadAllLines]
  split
  next r2 rest2 h2 => rw [h] at h2; exact ReadLineResult.noConfusion h2
  next h2 => rw [h] at h2; exact ReadLineResult.noConfusion h2
  next h2 => rfl

/-! ## The background read loop (SubprocessCLITransport.messageReaderLoop)

The loop repeatedly calls `ReadLine` on the child stdout, skips empty lines,
decodes each line with `UnmarshalMessage` and sends the decoded messages to
the session channel.  A decode failure is stored through `OnError` and the
loop continues; end of stream returns from the loop; any other read failure
is wrapped, stored through `OnError`, and also returns from the loop.  The
deferred close of the message channel runs on every exit path.  The loop is
modelled over the sequence of `ReadLine` outcomes: line contents (as parsed
data) and non-end-of-stream read failures; the end of the event list is end
of stream. -/

/-- One `ReadLine` outcome seen by the read loop. -/
inductive LineEvent : Type where
  | lineData (d : ByteData) : LineEvent
  | readFailure (cause : String) : LineEvent
  deriving DecidableEq

/-- `SubprocessCLITransport.OnError`: store an error only when no error has
been stored yet, so the slot keeps the first error. -/
def OnError (slot : Option SDKError) (e : SDKError) : Option SDKError :=
  match slot with
  | none => some e
  | some e0 => some e0

/-- `SubprocessCLITransport.GetError`: return the stored error slot. -/
def GetError (slot : Option SDKError) : Option SDKError := slot

/-- The wrapping the read loop applies to a failed `ReadLine` before storing
it: `NewJSONDecodeErrorWithCause` over an empty raw payload. -/
def readLoopFailureError (cause : String) : SDKError :=
  .jsonDecodeError "failed to read JSON line from subprocess" .empty (some (.literal cause))

/-- Observable outcome of one run of the read loop: the messages delivered
to the channel in order, the final error slot, and whether the channel was
closed on exit. -/
structure ReaderLoopResult where
  delivered : List Message
  errSlot : Option SDKError
  channelClosed : Bool
  deriving DecidableEq

/-- The read loop body, threading the error slot. -/
def messageReaderLoopAux (events : List LineEvent) (slot : Option SDKError) :
    ReaderLoopResult :=
  match events with
  | [] => ⟨[], slot, true⟩
  | .readFailure c :: _ => ⟨[], OnError slot (readLoopFailureError c), true⟩
  | .lineData d :: rest =>
    if d = .empty then messageReaderLoopAux rest slot
    else
      match UnmarshalMessage d with
      | .error e => messageReaderLoopAux rest (OnError slot e)
      | .ok m =>
        ⟨m :: (messageReaderLoopAux rest slot).delivered,
         (messageReaderLoopAux rest slot).errSlot,
         (messageReaderLoopAux rest slot).channelClosed⟩

/-- `SubprocessCLITransport.messageReaderLoop`, started with an empty error
slot. -/
def messageReaderLoop (events : List LineEvent) : ReaderLoopResult :=
  messageReaderLoopAux events none

/-- Whether a read-loop event is a delivered line (rather than a failure). -/
def isLineEvent : LineEvent → Bool
  | .lineData _ => true
  | .readFailure _ => false

/-- The messages the loop should deliver for a failure-free event sequence:
every nonempty line that decodes successfully, in order. -/
def decodedMessages (events : List LineEvent) : List Message :=
  events.filterMap fun e =>
    match e with
    | .lineData d => if d = .empty then none else (UnmarshalMessage d).toOption
    | .readFailure _ => none

/-- The first decode failure among the events, if any. -/
def firstDecodeError (events : List LineEvent) : Option SDKError :=
  events.findSome? fun e =>
    match e with
    | .lineData d =>
      if d = .empty then none
      else
        match UnmarshalMessage d with
        | .error er => some er
        | .ok _ => none
    | .readFailure _ => none

/-- First-wins combination of two optional errors, the effect of repeated
`OnError` calls. -/
def keepFirst (a b : Option SDKError) : Option SDKError :=
  match a with
  | some e => some e
  | none => b

/-! ## Client.ReceiveResponse (client.go)

The forwarding goroutine reads from the session message channel, forwards
each message to the caller, and returns right after forwarding a
`ResultMessage`; returning closes the output channel and leaves any later
channel contents unconsumed.  Modelled as a function from the sequence of
messages delivered on the channel to the sequence the caller receives. -/

/-- The type assertion `msg.(*types.ResultMessage)` used as the stop test. -/
def isResultMessage : Message → Bool
  | .result _ _ _ _ _ _ _ _ _ _ => true
  | _ => false

/-- `Client.ReceiveResponse`: forward messages in order and stop right after
the first result message. -/
def ReceiveResponse (messages : List Message) : List Message :=
  match messages with
  | [] => []
  | m :: ms => m :: (if isResultMessage m then [] else ReceiveResponse ms)

/-! ## Subprocess transport state (SubprocessCLITransport)

The mutex-protected state relevant to connect, write and close: whether the
command handle has been created (`cmd` is non-nil), the ready flag, whether
the stdin writer was initialized, the stored error, and the bytes written to
the child stdin.  `Connect` returns early when the command handle already
exists; a failed write drops the ready flag and stores the write error;
`Close` drops the ready flag and keeps the command handle.  Spawn and write
input/output success is a parameter of the corresponding operation; the
return value of `Close` (the process exit outcome) is not modelled, only its
state effect. -/

/-- The modelled fields of `SubprocessCLITransport`. -/
structure TransportState where
  cmdStarted : Bool
  ready : Bool
  writerInit : Bool
  err : Option SDKError
  stdinStream : List Nat
  deriving DecidableEq

/-- A transport state as produced by `NewSubprocessCLITransport`. -/
def initialTransportState : TransportState :=
  ⟨false, false, false, none, []⟩

/-- One public transport operation, with the outcome of its interaction with
the operating system as a parameter. -/
inductive TransportOp : Type where
  | connectOp (spawnOk : Bool) : TransportOp
  | writeOp (data : List Nat) (ioOk : Bool) : TransportOp
  | closeOp : TransportOp
  deriving DecidableEq

/-- The error returned by `Write` when the transport is not ready. -/
def notReadyError : SDKError :=
  .cliConnectionError "transport is not ready for writing"

/-- One step of the transport: `Connect`, `Write` or `Close`, returning the
new state and the returned error, if any. -/
def stepTransport (s : TransportState) (op : TransportOp) :
    TransportState × Option SDKError :=
  match op with
  | .connectOp spawnOk =>
    if s.cmdStarted then (s, none)
    else if spawnOk then
      ({ s with cmdStarted := true, ready := true, writerInit := true }, none)
    else ({ s with cmdStarted := true }, some (.cliConnectionError "failed to start subprocess"))
  | .writeOp data ioOk =>
    if s.ready = false then (s, some notReadyError)
    else if s.writerInit = false then
      (s, some (.cliConnectionError "stdin writer not initialized"))
    else if ioOk then ({ s with stdinStream := WriteLine s.stdinStream data }, none)
    else
      ({ s with ready := false, err := some (.cliConnectionError "failed to write to subprocess stdin") },
       some (.cliConnectionError "failed to write to subprocess stdin"))
  | .closeOp =>
    if s.cmdStarted = false then (s, none)
    else ({ s with ready := false }, none)

/-- Running a sequence of transport operations, collecting returned errors. -/
def runTransport (s : TransportState) (ops : List TransportOp) :
    TransportState × List (Option SDKError) :=
  match ops with
  | [] => (s, [])
  | op :: rest =>
    let step := stepTransport s op
    let run := runTransport step.1 rest
    (run.1, step.2 :: run.2)

/-! ## Claim C1: type discriminator edge cases -/

/-- C1 counterexample: a `type` field that is null, a number, or absent does
not fail identically in the three cases.  `extractType` distinguishes the
absent field (missing-type error) from the null field (not-a-string error),
and `ParseMessage` classifies the numeric field as a JSON decode failure but
the null field as an unknown empty message type. -/
theorem typeEdgeCases_not_identical :
    extractType (.value (.obj (.cons "type" .null .nil))) = .error .typeFieldNotString ∧
    extractType (.value (.obj (.cons "content" (.str "x") .nil))) = .error .missingTypeField ∧
    ExtractTypeError.typeFieldNotString ≠ ExtractTypeError.missingTypeField ∧
    ParseMessage (.value (.obj (.cons "type" (.num 123) .nil))) ≠
      ParseMessage (.value (.obj (.cons "type" .null .nil))) := by
  refine ⟨by decide, by decide, by decide, by decide⟩

/-- C1 amended: for every JSON object record, a `type` field that is null, a
number, or absent always fails in both decoders and is never coerced, but the
failures are not identical: `extractType` reports a missing type field when
the field is absent and a not-a-string failure for null and numeric fields,
while `ParseMessage` reports an unknown message type with an empty type
string for absent and null fields and a JSON decode failure for numeric
fields. -/
theorem typeEdgeCases_all_fail (fields : JsonObject) :
    (lookupField fields "type" = none →
      extractType (.value (.obj fields)) = .error .missingTypeField ∧
      ParseMessage (.value (.obj fields)) =
        .error (.messageParseError "unknown message type" (some ""))) ∧
    (lookupField fields "type" = some .null →
      extractType (.value (.obj fields)) = .error .typeFieldNotString ∧
      ParseMessage (.value (.obj fields)) =
        .error (.messageParseError "unknown message type" (some ""))) ∧
    (∀ n : Int, lookupField fields "type" = some (.num n) →
      extractType (.value (.obj fields)) = .error .typeFieldNotString ∧
      ParseMessage (.value (.obj fields)) =
        .error (.jsonDecodeError "failed to determine message type" (.value (.obj fields))
          (some (.goJson (.cannotUnmarshal "number" "string"))))) := by
  refine ⟨fun h => ⟨?_, ?_⟩, fun h => ⟨?_, ?_⟩, fun n h => ⟨?_, ?_⟩⟩ <;>
    simp [extractType, ParseMessage, UnmarshalMessage, unmarshalTypeField, goStringField, h,
      kindOf, IsMessageParseError, IsJSONDecodeError]

/-- C1 witness: the amended theorem applied at concrete records for each of
the three edge cases. -/
theorem typeEdgeCases_all_fail_witness :
    ParseMessage (.value (.obj (.cons "content" (.str "x") .nil))) =
      .error (.messageParseError "unknown message type" (some "")) ∧
    ParseMessage (.value (.obj (.cons "type" .null .nil))) =
      .error (.messageParseError "unknown message type" (some "")) ∧
    ParseMessage (.value (.obj (.cons "type" (.num 123) .nil))) =
      .error (.jsonDecodeError "failed to determine message type"
        (.value (.obj (.cons "type" (.num 123) .nil)))
        (some (.goJson (.cannotUnmarshal "number" "string")))) :=
  ⟨((typeEdgeCases_all_fail (.cons "content" (.str "x") .nil)).1 (by decide)).2,
   ((typeEdgeCases_all_fail (.cons "type" .null .nil)).2.1 (by decide)).2,
   ((typeEdgeCases_all_fail (.cons "type" (.num 123) .nil)).2.2 123 (by decide)).2⟩

/-! ## Claim C4: top-level dispatch set -/

/-- C4 counterexample: `control_request` is claimed to be a known dispatched
shape, but `UnmarshalMessage` fails on a control request record with the
unknown-message-type error carrying the offending string. -/
theorem unmarshalMessage_controlRequest_counterexample :
    UnmarshalMessage (.value (.obj (.cons "type" (.str "control_request")
        (.cons "request_id" (.str "r1") .nil)))) =
      .error (.messageParseError "unknown message type" (some "control_request")) ∧
    UnmarshalMessage (.value (.obj (.cons "type" (.str "control_response") .nil))) =
      .error (.messageParseError "unknown message type" (some "control_response")) := by
  refine ⟨by decide, by decide⟩

/-- C4 amended: `UnmarshalMessage` dispatches on the top-level `type` string
to one of the five known content shapes (`user`, `assistant`, `system`,
`result`, `stream_event`), and every record whose `type` is a string outside
this five-element set, including `control_request` and `control_response`,
fails with a `MessageParseError` carrying the offending type string. -/
theorem unmarshalMessage_dispatch :
    (∀ (fields : JsonObject) (t : String), lookupField fields "type" = some (.str t) →
      t ≠ "user" → t ≠ "assistant" → t ≠ "system" → t ≠ "result" → t ≠ "stream_event" →
      UnmarshalMessage (.value (.obj fields)) =
        .error (.messageParseError "unknown message type" (some t))) ∧
    UnmarshalMessage (.value (.obj (.cons "type" (.str "user")
        (.cons "content" (.str "hi") .nil)))) =
      .ok (.user "user" (.ofString "hi") none) ∧
    UnmarshalMessage (.value (.obj (.cons "type" (.str "assistant")
        (.cons "model" (.str "m")
          (.cons "content" (.arr (.cons (.obj (.cons "type" (.str "text")
            (.cons "text" (.str "hi") .nil))) .nil)) .nil))))) =
      .ok (.assistant "assistant" [.text "text" "hi"] "m" none) ∧
    UnmarshalMessage (.value (.obj (.cons "type" (.str "system")
        (.cons "subtype" (.str "warning") .nil)))) =
      .ok (.system "system" "warning" none) ∧
    UnmarshalMessage (.value (.obj (.cons "type" (.str "result")
        (.cons "subtype" (.str "success")
          (.cons "is_error" (.bool false) (.cons "session_id" (.str "s1") .nil)))))) =
      .ok (.result "result" "success" 0 0 false 0 "s1" none none none) ∧
    UnmarshalMessage (.value (.obj (.cons "type" (.str "stream_event")
        (.cons "uuid" (.str "u1") (.cons "session_id" (.str "s1") .nil))))) =
      .ok (.streamEvent "stream_event" "u1" "s1" none none) := by
  refine ⟨fun fields t h h1 h2 h3 h4 h5 => ?_, by decide, by decide, by decide, by decide, by decide⟩
  simp [UnmarshalMessage, unmarshalTypeField, goStringField, h, h1, h2, h3, h4, h5]

/-- C4 witness: the universally quantified part of the amended theorem
applied to a concrete record with an unrecognized type string. -/
theorem unmarshalMessage_dispatch_witness :
    UnmarshalMessage (.value (.obj (.cons "type" (.str "unknown_message_type")
        (.cons "data" (.obj .nil) .nil)))) =
      .error (.messageParseError "unknown message type" (some "unknown_message_type")) :=
  unmarshalMessage_dispatch.1 (.cons "type" (.str "unknown_message_type")
    (.cons "data" (.obj .nil) .nil)) "unknown_message_type"
    (by decide) (by decide) (by decide) (by decide) (by decide) (by decide)

/-! ## Claim C5: the user message content union -/

/-- C5 counterexample: a user message whose `content` field is JSON null is
not an error: the string probe succeeds because a Go unmarshal of null has
no effect, so the message decodes with the empty string as content. -/
theorem userMessage_nullContent_counterexample :
    ParseMessage (.value (.obj (.cons "type" (.str "user") (.cons "content" .null .nil)))) =
      .ok (.user "user" (.ofString "") none) := by decide

/-- C5 amended: for a user message record, a string `content` decodes to
that string and an array `content` decodes to the list of decoded blocks
(failing if a block fails), with the string shape probed first and no
discriminator consulted; a null `content` decodes to the empty string
because the Go null unmarshal has no effect; an absent, numeric, boolean or
object `content` is the content-shape error. -/
theorem userMessage_contentUnion (fields : JsonObject) (ty : String) (ptid : Option String)
    (hty : goStringField fields "type" = .ok ty)
    (hpt : goOptStringField fields "parent_tool_use_id" = .ok ptid) :
    (∀ s, lookupField fields "content" = some (.str s) →
      unmarshalUserMessage (.value (.obj fields)) = .ok (.user ty (.ofString s) ptid)) ∧
    (∀ xs bs, lookupField fields "content" = some (.arr xs) → decodeBlockList xs = .ok bs →
      unmarshalUserMessage (.value (.obj fields)) = .ok (.user ty (.ofBlocks bs) ptid)) ∧
    (∀ xs e, lookupField fields "content" = some (.arr xs) → decodeBlockList xs = .error e →
      unmarshalUserMessage (.value (.obj fields)) = .error (.blockErr e)) ∧
    (lookupField fields "content" = some .null →
      unmarshalUserMessage (.value (.obj fields)) = .ok (.user ty (.ofString "") ptid)) ∧
    (lookupField fields "content" = none →
      unmarshalUserMessage (.value (.obj fields)) = .error .contentShapeErr) ∧
    (∀ n, lookupField fields "content" = some (.num n) →
      unmarshalUserMessage (.value (.obj fields)) = .error .contentShapeErr) ∧
    (∀ b, lookupField fields "content" = some (.bool b) →
      unmarshalUserMessage (.value (.obj fields)) = .error .contentShapeErr) ∧
    (∀ o, lookupField fields "content" = some (.obj o) →
      unmarshalUserMessage (.value (.obj fields)) = .error .contentShapeErr) := by
  refine ⟨fun s h => ?_, fun xs bs h hd => ?_, fun xs e h hd => ?_, fun h => ?_,
    fun h => ?_, fun n h => ?_, fun b h => ?_, fun o h => ?_⟩ <;>
    simp [unmarshalUserMessage, hty, hpt, *]

/-- C5 witness: the amended theorem applied at concrete records for the
string, array, null and numeric content shapes. -/
theorem userMessage_contentUnion_witness :
    unmarshalUserMessage (.value (.obj (.cons "type" (.str "user")
        (.cons "content" (.str "Hello Claude") .nil)))) =
      .ok (.user "user" (.ofString "Hello Claude") none) ∧
    unmarshalUserMessage (.value (.obj (.cons "type" (.str "user")
        (.cons "content" (.arr (.cons (.obj (.cons "type" (.str "text")
          (.cons "text" (.str "hi") .nil))) .nil)) .nil)))) =
      .ok (.user "user" (.ofBlocks [.text "text" "hi"]) none) ∧
    unmarshalUserMessage (.value (.obj (.cons "type" (.str "user")
        (.cons "content" .null .nil)))) =
      .ok (.user "user" (.ofString "") none) ∧
    unmarshalUserMessage (.value (.obj (.cons "type" (.str "user")
        (.cons "content" (.num 5) .nil)))) =
      .error .contentShapeErr :=
  ⟨(userMessage_contentUnion _ "user" none (by decide) (by decide)).1 "Hello Claude" (by decide),
   (userMessage_contentUnion _ "user" none (by decide) (by decide)).2.1
     (.cons (.obj (.cons "type" (.str "text") (.cons "text" (.str "hi") .nil))) .nil)
     [.text "text" "hi"] (by decide) (by decide),
   (userMessage_contentUnion _ "user" none (by decide) (by decide)).2.2.2.1 (by decide),
   (userMessage_contentUnion _ "user" none (by decide) (by decide)).2.2.2.2.2.1 5 (by decide)⟩

/-! ## Claim C6: ReceiveResponse stops at the first result -/

/-- C6: for every sequence of messages delivered on the session channel,
`ReceiveResponse` yields them in delivery order up to and including the
first result message and then ends, with the messages after the first
result neither consumed nor yielded. -/
theorem receiveResponse_stops_at_result (pre : List Message) (res : Message)
    (rest : List Message) (hpre : ∀ m ∈ pre, isResultMessage m = false)
    (hres : isResultMessage res = true) :
    ReceiveResponse (pre ++ res :: rest) = pre ++ [res] := by
  induction pre with
  | nil => simp [ReceiveResponse, hres]
  | cons m ms ih =>
    have hm : isResultMessage m = false := hpre m (by simp)
    simp only [List.cons_append, ReceiveResponse, hm, if_false, Bool.false_eq_true]
    exact congrArg (m :: ·) (ih (fun x hx => hpre x (by simp [hx])))

/-- C6 witness: the theorem applied to a concrete scripted sequence of two
content messages, a result, and a trailing message that is not yielded. -/
theorem receiveResponse_stops_at_result_witness :
    ReceiveResponse [.system "system" "a" none, .user "user" (.ofString "hi") none,
        .result "result" "success" 1 1 false 1 "s" none none none,
        .system "system" "late" none] =
      [.system "system" "a" none, .user "user" (.ofString "hi") none,
        .result "result" "success" 1 1 false 1 "s" none none none] :=
  receiveResponse_stops_at_result
    [.system "system" "a" none, .user "user" (.ofString "hi") none]
    (.result "result" "success" 1 1 false 1 "s" none none none)
    [.system "system" "late" none] (by decide) (by decide)

/-! ## Claim C7: the stored background-read error -/

/-- C7 counterexample: after two background errors, `GetError` returns the
first stored error, not the latest: `OnError` only stores into an empty
slot. -/
theorem getError_keepsFirst_counterexample :
    GetError (OnError (OnError none (.messageParseError "unknown message type" (some "a")))
        (.messageParseError "unknown message type" (some "b"))) =
      some (.messageParseError "unknown message type" (some "a")) ∧
    SDKError.messageParseError "unknown message type" (some "a") ≠
      SDKError.messageParseError "unknown message type" (some "b") := by
  refine ⟨by decide, by decide⟩

theorem foldl_onError_some (es : List SDKError) (e : SDKError) :
    es.foldl OnError (some e) = some e := by
  induction es with
  | nil => rfl
  | cons x xs ih => simpa [OnError] using ih

/-- C7 amended: after the read loop has recorded one or more errors through
`OnError`, `GetError` returns the first recorded error; later errors do not
replace it.  (The inspection itself is a pure read of the slot under the
mutex and cannot block.) -/
theorem getError_first_error (errors : List SDKError) :
    GetError (errors.foldl OnError none) = errors.head? := by
  cases errors with
  | nil => rfl
  | cons e es => simp [GetError, List.foldl_cons, OnError, foldl_onError_some, List.head?]

/-! ## Claim C9: content block sequence decoding -/

/-- Whether a raw content block parses successfully. -/
def isOkBlock (d : ByteData) : Bool :=
  match ParseContentBlock d with
  | .ok _ => true
  | .error _ => false

theorem parseContentBlocksAux_append_error (pre : List ByteData) (d : ByteData)
    (post : List ByteData) (e : SDKError) (i : Nat)
    (hpre : ∀ x ∈ pre, isOkBlock x = true) (hd : ParseContentBlock d = .error e) :
    parseContentBlocksAux i (pre ++ d :: post) = .error (.atIndex (i + pre.length) e) := by
  induction pre generalizing i with
  | nil => simp [parseContentBlocksAux, hd]
  | cons x xs ih =>
    have hx := hpre x (by simp)
    unfold isOkBlock at hx
    cases hb : ParseContentBlock x with
    | error e2 => rw [hb] at hx; simp at hx
    | ok b =>
      simp only [List.cons_append, parseContentBlocksAux, hb]
      rw [show xs.append (d :: post) = xs ++ d :: post from rfl,
        ih (i + 1) (fun y hy => hpre y (by simp [hy]))]
      have : i + 1 + xs.length = i + (xs.length + 1) := by omega
      simp [this]

theorem parseContentBlocksAux_all_ok (ds : List ByteData) (bs : List ContentBlock) (i : Nat)
    (hlen : ds.length = bs.length)
    (hok : ∀ p ∈ ds.zip bs, ParseContentBlock p.1 = .ok p.2) :
    parseContentBlocksAux i ds = .ok bs := by
  induction ds generalizing bs i with
  | nil =>
    cases bs with
    | nil => rfl
    | cons b bs2 => simp at hlen
  | cons d ds2 ih =>
    cases bs with
    | nil => simp at hlen
    | cons b bs2 =>
      have hd : ParseContentBlock d = .ok b := hok (d, b) (by simp)
      simp only [parseContentBlocksAux, hd]
      rw [ih bs2 (i + 1) (by simpa using hlen) (fun p hp => hok p (by simp [hp]))]

/-- C9: `ParseContentBlocks` fails fast on the first malformed element and
its error names the zero-based index of that element, for every position of
the first malformed element; and when every element is well formed it
returns the decoded blocks in order. -/
theorem parseContentBlocks_index_and_order :
    (∀ (pre : List ByteData) (d : ByteData) (post : List ByteData) (e : SDKError),
      (∀ x ∈ pre, isOkBlock x = true) → ParseContentBlock d = .error e →
      ParseContentBlocks (pre ++ d :: post) = .error (.atIndex pre.length e)) ∧
    (∀ (ds : List ByteData) (bs : List ContentBlock), ds.length = bs.length →
      (∀ p ∈ ds.zip bs, ParseContentBlock p.1 = .ok p.2) →
      ParseContentBlocks ds = .ok bs) := by
  constructor
  · intro pre d post e hpre hd
    have := parseContentBlocksAux_append_error pre d post e 0 hpre hd
    simpa [ParseContentBlocks] using this
  · intro ds bs hlen hok
    exact parseContentBlocksAux_all_ok ds bs 0 hlen hok

/-- C9 witness: the theorem applied to a concrete sequence whose first
malformed element sits at index 2, and to a concrete fully well-formed
sequence. -/
theorem parseContentBlocks_index_and_order_witness :
    ParseContentBlocks [.value (.obj (.cons "type" (.str "text") (.cons "text" (.str "a") .nil))),
        .value (.obj (.cons "type" (.str "text") (.cons "text" (.str "b") .nil))),
        .value (.obj (.cons "type" (.str "unknown_block_type") .nil)),
        .value (.obj (.cons "type" (.str "text") .nil))] =
      .error (.atIndex 2 (.messageParseError "unknown content block type"
        (some "unknown_block_type"))) ∧
    ParseContentBlocks [.value (.obj (.cons "type" (.str "text") (.cons "text" (.str "a") .nil))),
        .value (.obj (.cons "type" (.str "thinking") (.cons "thinking" (.str "t")
          (.cons "signature" (.str "sig") .nil))))] =
      .ok [.text "text" "a", .thinking "thinking" "t" "sig"] :=
  ⟨parseContentBlocks_index_and_order.1
      [.value (.obj (.cons "type" (.str "text") (.cons "text" (.str "a") .nil))),
       .value (.obj (.cons "type" (.str "text") (.cons "text" (.str "b") .nil)))]
      (.value (.obj (.cons "type" (.str "unknown_block_type") .nil)))
      [.value (.obj (.cons "type" (.str "text") .nil))]
      (.messageParseError "unknown content block type" (some "unknown_block_type"))
      (by decide) (by decide),
   parseContentBlocks_index_and_order.2
      [.value (.obj (.cons "type" (.str "text") (.cons "text" (.str "a") .nil))),
       .value (.obj (.cons "type" (.str "thinking") (.cons "thinking" (.str "t")
         (.cons "signature" (.str "sig") .nil))))]
      [.text "text" "a", .thinking "thinking" "t" "sig"] (by decide) (by decide)⟩

/-! ## Claim C2: the record size limit -/

theorem dropCR_length_le (bs : List Nat) : (dropCR bs).length ≤ bs.length := by
  unfold dropCR
  split
  · simpa using List.length_dropLast_le bs
  · exact le_refl _

theorem firstNewlineIdx_append_cons (content tail : List Nat) (h : 10 ∉ content) :
    firstNewlineIdx (content ++ 10 :: tail) = some content.length := by
  induction content with
  | nil => simp [firstNewlineIdx]
  | cons b bs ih =>
    have hb : b ≠ 10 := fun hc => h (by simp [hc])
    have hbs : 10 ∉ bs := fun hc => h (by simp [hc])
    simp [firstNewlineIdx, hb, ih hbs]

/-- C2 counterexample: the reader can return a record longer than the
configured maximum.  With a configured maximum of 10 bytes, a 12-byte line
is returned whole, because the scanner buffer is allocated with a 64 KiB
initial capacity and a token found inside the existing buffer is returned
without any check against the configured maximum. -/
theorem readLine_overLimit_counterexample :
    ReadLine 10 [97, 97, 97, 97, 97, 97, 97, 97, 97, 97, 97, 97, 10] =
      .line [97, 97, 97, 97, 97, 97, 97, 97, 97, 97, 97, 97] [] ∧
    10 < ([97, 97, 97, 97, 97, 97, 97, 97, 97, 97, 97, 97] : List Nat).length := by
  refine ⟨by decide, by decide⟩

/-- C2 amended: the reader enforces the effective limit
`max maxSize 65536` rather than the configured maximum: every returned
record is strictly shorter than the effective limit, and a newline-terminated
line succeeds exactly when its content is strictly shorter than the effective
limit — so for a maximum of at least 64 KiB a line whose content length
equals the configured maximum already fails with the framing (too-long)
error, strictly-shorter lines succeed, and maxima below the 64 KiB initial
buffer capacity are not enforced at all.  The default maximum is 1 MiB, for
which the effective and configured limits agree. -/
theorem readLine_effective_bound :
    (∀ (maxSize : Nat) (input r rest : List Nat), ReadLine maxSize input = .line r rest →
      r.length < effectiveMaxSize maxSize) ∧
    (∀ (maxSize : Nat) (content : List Nat), 10 ∉ content →
      ReadLine maxSize (content ++ [10]) =
        if content.length < effectiveMaxSize maxSize then .line (dropCR content) []
        else .tooLongError) ∧
    DefaultMaxBufferSize = 1024 * 1024 ∧
    effectiveMaxSize DefaultMaxBufferSize = DefaultMaxBufferSize := by
  refine ⟨?_, ?_, by decide, by decide⟩
  · intro maxSize input r rest h
    cases hidx : firstNewlineIdx input with
    | some i =>
      simp only [ReadLine, hidx] at h
      split_ifs at h with hlt
      all_goals
        first
        | exact ReadLineResult.noConfusion h
        | (injection h with h1 h2
           have hle : r.length ≤ i := by
             rw [← h1]
             calc (dropCR (input.take i)).length ≤ (input.take i).length :=
                   dropCR_length_le _
               _ ≤ i := by simp [List.length_take]
           omega)
    | none =>
      simp only [ReadLine, hidx] at h
      split_ifs at h with hge hz
      all_goals
        first
        | exact ReadLineResult.noConfusion h
        | (injection h with h1 h2
           have hle : r.length ≤ input.length := by
             rw [← h1]; exact dropCR_length_le _
           omega)
  · intro maxSize content h
    have hidx : firstNewlineIdx (content ++ [10]) = some content.length :=
      firstNewlineIdx_append_cons content [] h
    simp only [ReadLine, hidx]
    split_ifs with hlt
    · have htake : (content ++ [10]).take content.length = content := List.take_left _ _
      have hdrop : (content ++ [10]).drop (content.length + 1) = [] := by
        rw [List.drop_eq_nil_iff_le]
        simp
      rw [htake, hdrop]
    · rfl

/-- C2 witness: the amended theorem applied at a concrete under-limit read
and at concrete boundary contents under the default maximum. -/
theorem readLine_effective_bound_witness :
    ([97] : List Nat).length < effectiveMaxSize 0 ∧
    ReadLine DefaultMaxBufferSize ([97, 98] ++ [10]) = .line [97, 98] [] :=
  ⟨readLine_effective_bound.1 0 [97, 10] [97] [] (by decide),
   by
    have h := readLine_effective_bound.2.1 DefaultMaxBufferSize [97, 98] (by decide)
    rw [h]
    decide⟩

/-! ## Claim C8: write then read round trip -/

theorem foldl_writeLine_acc (rs : List (List Nat)) :
    ∀ acc : List Nat, rs.foldl WriteLine acc = acc ++ rs.foldl WriteLine [] := by
  induction rs with
  | nil => intro acc; simp
  | cons r rest ih =>
    intro acc
    simp only [List.foldl_cons]
    rw [ih (WriteLine acc r), ih (WriteLine [] r)]
    simp [WriteLine]

theorem writeAllLines_cons (r : List Nat) (rs : List (List Nat)) :
    writeAllLines (r :: rs) = r ++ 10 :: writeAllLines rs := by
  simp only [writeAllLines, List.foldl_cons]
  rw [foldl_writeLine_acc]
  simp [WriteLine]

theorem dropCR_of_no_trailing_cr {bs : List Nat} (h : bs.getLast? ≠ some 13) :
    dropCR bs = bs := by
  unfold dropCR
  split
  next heq => exact absurd heq h
  next => rfl

theorem effectiveMaxSize_pos (maxSize : Nat) : 0 < effectiveMaxSize maxSize :=
  lt_of_lt_of_le (by decide : (0 : Nat) < initialBufferSize) (Nat.le_max_right _ _)

theorem readLine_nil (maxSize : Nat) : ReadLine maxSize [] = .endOfStream := by
  have hpos := effectiveMaxSize_pos maxSize
  simp only [ReadLine, firstNewlineIdx]
  have : ¬ effectiveMaxSize maxSize ≤ ([] : List Nat).length := by simp; omega
  simp [this]
  omega

/-- C8 counterexample: a record with no embedded newline byte and well under
the size limit does not round-trip when it ends in a carriage return byte:
the scanner strips one trailing carriage return from every token, so the
record comes back one byte shorter. -/
theorem writeRead_trailingCR_counterexample :
    (10 ∈ ([97, 13] : List Nat) → False) ∧
    ([97, 13] : List Nat).length < DefaultMaxBufferSize ∧
    ReadAllLines DefaultMaxBufferSize (writeAllLines [[97, 13]]) = .ok [[97]] ∧
    ([[97]] : List (List Nat)) ≠ [[97, 13]] := by
  refine ⟨by decide, by decide, ?_, by decide⟩
  have hw : writeAllLines [[97, 13]] = [97, 13, 10] := by decide
  have h1 : ReadLine DefaultMaxBufferSize [97, 13, 10] = .line [97] [] := by decide
  rw [hw, ReadAllLines_line h1, ReadAllLines_eos (readLine_nil _)]

/-- C8 amended: writing any finite sequence of records with `WriteLine` (one
newline terminator appended per record) and reading the stream back with
repeated `ReadLine` calls yields exactly the same records in the same order,
provided each record contains no newline byte, does not end in a carriage
return byte, and is strictly shorter than the configured maximum. -/
theorem writeRead_roundtrip (maxSize : Nat) (records : List (List Nat))
    (h : ∀ r ∈ records, 10 ∉ r ∧ r.getLast? ≠ some 13 ∧ r.length < maxSize) :
    ReadAllLines maxSize (writeAllLines records) = .ok records := by
  induction records with
  | nil =>
    have : writeAllLines [] = [] := rfl
    rw [this, ReadAllLines_eos (readLine_nil _)]
  | cons r rs ih =>
    obtain ⟨hnl, hcr, hlen⟩ := h r (by simp)
    rw [writeAllLines_cons]
    have hidx : firstNewlineIdx (r ++ 10 :: writeAllLines rs) = some r.length :=
      firstNewlineIdx_append_cons r (writeAllLines rs) hnl
    have hlt : r.length < effectiveMaxSize maxSize :=
      lt_of_lt_of_le hlen (Nat.le_max_left _ _)
    have hline : ReadLine maxSize (r ++ 10 :: writeAllLines rs) =
        .line r (writeAllLines rs) := by
      simp only [ReadLine, hidx, hlt, if_true]
      have htake : (r ++ 10 :: writeAllLines rs).take r.length = r := List.take_left _ _
      have hsplit : r ++ 10 :: writeAllLines rs = (r ++ [10]) ++ writeAllLines rs := by
        simp
      have hdrop : (r ++ 10 :: writeAllLines rs).drop (r.length + 1) = writeAllLines rs := by
        rw [hsplit]
        have : r.length + 1 = (r ++ [10]).length := by simp
        rw [this, List.drop_left]
      rw [htake, hdrop, dropCR_of_no_trailing_cr hcr]
    rw [ReadAllLines_line hline, ih (fun x hx => h x (by simp [hx]))]

/-- C8 witness: the round trip applied to a concrete two-record sequence. -/
theorem writeRead_roundtrip_witness :
    ReadAllLines DefaultMaxBufferSize (writeAllLines [[97, 98], [99]]) = .ok [[97, 98], [99]] :=
  writeRead_roundtrip DefaultMaxBufferSize [[97, 98], [99]] (by decide)

/-! ## Claim C3: decode failures versus stream failures in the read loop -/

theorem messageReaderLoopAux_noFailure (events : List LineEvent) :
    ∀ slot : Option SDKError, (∀ e ∈ events, isLineEvent e = true) →
    messageReaderLoopAux events slot =
      ⟨decodedMessages events, keepFirst slot (firstDecodeError events), true⟩ := by
  induction events with
  | nil =>
    intro slot h
    simp only [messageReaderLoopAux, decodedMessages, firstDecodeError, List.filterMap_nil,
      List.findSome?_nil]
    cases slot <;> rfl
  | cons e rest ih =>
    intro slot h
    cases e with
    | readFailure c =>
      have hc := h _ (List.mem_cons_self _ _)
      simp [isLineEvent] at hc
    | lineData d =>
      have hrest : ∀ x ∈ rest, isLineEvent x = true := fun x hx => h x (by simp [hx])
      by_cases hd : d = ByteData.empty
      · subst hd
        simp only [messageReaderLoopAux, if_pos rfl]
        rw [ih slot hrest]
        simp [decodedMessages, firstDecodeError, List.filterMap_cons, List.findSome?_cons]
      · cases hu : UnmarshalMessage d with
        | error er =>
          simp only [messageReaderLoopAux, if_neg hd, hu]
          rw [ih (OnError slot er) hrest]
          have h1 : decodedMessages (.lineData d :: rest) = decodedMessages rest := by
            simp [decodedMessages, List.filterMap_cons, hd, hu, Except.toOption]
          have h2 : firstDecodeError (.lineData d :: rest) = some er := by
            simp [firstDecodeError, List.findSome?_cons, hd, hu]
          rw [h1, h2]
          cases slot <;> simp [OnError, keepFirst]
        | ok m =>
          simp only [messageReaderLoopAux, if_neg hd, hu]
          rw [ih slot hrest]
          have h1 : decodedMessages (.lineData d :: rest) = m :: decodedMessages rest := by
            simp [decodedMessages, List.filterMap_cons, hd, hu, Except.toOption]
          have h2 : firstDecodeError (.lineData d :: rest) = firstDecodeError rest := by
            simp [firstDecodeError, List.findSome?_cons, hd, hu]
          rw [h1, h2]

theorem messageReaderLoopAux_failure (pre : List LineEvent) (c : String)
    (rest : List LineEvent) :
    ∀ slot : Option SDKError, (∀ e ∈ pre, isLineEvent e = true) →
    messageReaderLoopAux (pre ++ .readFailure c :: rest) slot =
      ⟨decodedMessages pre,
       keepFirst slot (keepFirst (firstDecodeError pre) (some (readLoopFailureError c))),
       true⟩ := by
  induction pre with
  | nil =>
    intro slot h
    simp only [List.nil_append, messageReaderLoopAux]
    cases slot <;> rfl
  | cons e pre2 ih =>
    intro slot h
    cases e with
    | readFailure c2 =>
      have hc := h _ (List.mem_cons_self _ _)
      simp [isLineEvent] at hc
    | lineData d =>
      have hpre2 : ∀ x ∈ pre2, isLineEvent x = true := fun x hx => h x (by simp [hx])
      by_cases hd : d = ByteData.empty
      · subst hd
        simp only [List.cons_append, messageReaderLoopAux, if_pos rfl]
        rw [show pre2.append (LineEvent.readFailure c :: rest) =
          pre2 ++ LineEvent.readFailure c :: rest from rfl, ih slot hpre2]
        simp [decodedMessages, firstDecodeError, List.filterMap_cons, List.findSome?_cons]
      · cases hu : UnmarshalMessage d with
        | error er =>
          simp only [List.cons_append, messageReaderLoopAux, if_neg hd, hu]
          rw [show pre2.append (LineEvent.readFailure c :: rest) =
            pre2 ++ LineEvent.readFailure c :: rest from rfl, ih (OnError slot er) hpre2]
          have h1 : decodedMessages (.lineData d :: pre2) = decodedMessages pre2 := by
            simp [decodedMessages, List.filterMap_cons, hd, hu, Except.toOption]
          have h2 : firstDecodeError (.lineData d :: pre2) = some er := by
            simp [firstDecodeError, List.findSome?_cons, hd, hu]
          rw [h1, h2]
          cases slot <;> simp [OnError, keepFirst]
        | ok m =>
          simp only [List.cons_append, messageReaderLoopAux, if_neg hd, hu]
          rw [show pre2.append (LineEvent.readFailure c :: rest) =
            pre2 ++ LineEvent.readFailure c :: rest from rfl, ih slot hpre2]
          have h1 : decodedMessages (.lineData d :: pre2) = m :: decodedMessages pre2 := by
            simp [decodedMessages, List.filterMap_cons, hd, hu, Except.toOption]
          have h2 : firstDecodeError (.lineData d :: pre2) = firstDecodeError pre2 := by
            simp [firstDecodeError, List.findSome?_cons, hd, hu]
          rw [h1, h2]

/-- C3 counterexample: a read failure that is not end of stream also
terminates the loop: a well-formed record that follows a failed read is
never delivered, while the same record alone is delivered.  (The spec allows
only end-of-stream to terminate the loop.) -/
theorem readLoop_nonEofFailure_counterexample :
    (messageReaderLoop [.readFailure "JSON line exceeded maximum buffer size",
        .lineData (.value (.obj (.cons "type" (.str "system") .nil)))]).delivered = [] ∧
    (messageReaderLoop [.readFailure "JSON line exceeded maximum buffer size",
        .lineData (.value (.obj (.cons "type" (.str "system") .nil)))]).errSlot =
      some (readLoopFailureError "JSON line exceeded maximum buffer size") ∧
    (messageReaderLoop
        [.lineData (.value (.obj (.cons "type" (.str "system") .nil)))]).delivered =
      [.system "system" "" none] := by
  refine ⟨by decide, by decide, by decide⟩

/-- C3 amended: over any failure-free event sequence the loop delivers, in
order, every nonempty record that decodes successfully, surfaces the first
decode failure to the error slot while continuing past it, and closes the
channel at end of stream; a read failure that is not end of stream (for
example a framing failure) also terminates the loop, after which the wrapped
failure is surfaced (unless a decode error was stored first), following
records are not processed, and the channel is still closed. -/
theorem readLoop_decode_vs_stream_failures :
    (∀ events : List LineEvent, (∀ e ∈ events, isLineEvent e = true) →
      messageReaderLoop events = ⟨decodedMessages events, firstDecodeError events, true⟩) ∧
    (∀ (pre : List LineEvent) (c : String) (rest : List LineEvent),
      (∀ e ∈ pre, isLineEvent e = true) →
      messageReaderLoop (pre ++ .readFailure c :: rest) =
        ⟨decodedMessages pre,
         keepFirst (firstDecodeError pre) (some (readLoopFailureError c)), true⟩) := by
  constructor
  · intro events h
    rw [messageReaderLoop, messageReaderLoopAux_noFailure events none h]
    rfl
  · intro pre c rest h
    rw [messageReaderLoop, messageReaderLoopAux_failure pre c rest none h]
    rfl

/-- C3 witness: the amended theorem applied to a concrete sequence holding a
malformed record followed by a well-formed one (the loop continues past the
decode failure), and to a concrete sequence cut off by a read failure. -/
theorem readLoop_decode_vs_stream_failures_witness :
    messageReaderLoop [.lineData .malformed,
        .lineData (.value (.obj (.cons "type" (.str "system") .nil)))] =
      ⟨[.system "system" "" none],
       some (.jsonDecodeError "failed to determine message type" .malformed
         (some (.goJson .syntaxError))), true⟩ ∧
    messageReaderLoop [.lineData (.value (.obj (.cons "type" (.str "system") .nil))),
        .readFailure "broken pipe"] =
      ⟨[.system "system" "" none], some (readLoopFailureError "broken pipe"), true⟩ :=
  ⟨by
    rw [readLoop_decode_vs_stream_failures.1
      [.lineData .malformed, .lineData (.value (.obj (.cons "type" (.str "system") .nil)))]
      (by decide)]
    decide,
   by
    rw [show ([.lineData (.value (.obj (.cons "type" (.str "system") .nil))),
        .readFailure "broken pipe"] : List LineEvent) =
      [.lineData (.value (.obj (.cons "type" (.str "system") .nil)))] ++
        LineEvent.readFailure "broken pipe" :: [] from rfl,
      readLoop_decode_vs_stream_failures.2
      [.lineData (.value (.obj (.cons "type" (.str "system") .nil)))] "broken pipe" []
      (by decide)]
    decide⟩

/-! ## Claim C10: lost readiness is permanent -/

theorem stepTransport_ready_imp_started (s : TransportState) (op : TransportOp)
    (h : s.ready = true → s.cmdStarted = true) :
    (stepTransport s op).1.ready = true → (stepTransport s op).1.cmdStarted = true := by
  cases op with
  | connectOp spawnOk =>
    by_cases hc : s.cmdStarted
    · simpa [stepTransport, hc] using h
    · cases spawnOk <;> simp [stepTransport, hc]
  | writeOp data ioOk =>
    by_cases hr : s.ready
    · by_cases hw : s.writerInit
      · cases ioOk <;> simp [stepTransport, hr, hw] <;>
          first
          | (intro hx; exact h hr)
          | exact h hr
          | skip
      · simpa [stepTransport, hr, hw] using h
    · simp only [stepTransport]
      simp [Bool.not_eq_true] at hr
      simpa [hr] using h
  | closeOp =>
    by_cases hc : s.cmdStarted
    · simp [stepTransport, hc]
    · simp only [stepTransport]
      simp [Bool.not_eq_true] at hc
      simpa [hc] using h

theorem runTransport_notReady (ops : List TransportOp) :
    ∀ s : TransportState, s.cmdStarted = true → s.ready = false →
    (runTransport s ops).1.ready = false ∧ (runTransport s ops).1.cmdStarted = true ∧
    (runTransport s ops).1.stdinStream = s.stdinStream ∧
    ∀ p ∈ ops.zip (runTransport s ops).2,
      ∀ (data : List Nat) (ioOk : Bool), p.1 = .writeOp data ioOk → p.2 = some notReadyError := by
  induction ops with
  | nil =>
    intro s hc hr
    exact ⟨hr, hc, rfl, by simp⟩
  | cons op rest ih =>
    intro s hc hr
    cases op with
    | connectOp spawnOk =>
      have hstep : stepTransport s (.connectOp spawnOk) = (s, none) := by
        simp [stepTransport, hc]
      simp only [runTransport, hstep]
      obtain ⟨ha, hb, hs, hz⟩ := ih s hc hr
      exact ⟨ha, hb, hs, by
        intro p hp data ioOk hpw
        simp only [List.zip_cons_cons, List.mem_cons] at hp
        cases hp with
        | inl he => rw [he] at hpw; exact absurd hpw (by simp)
        | inr he => exact hz p he data ioOk hpw⟩
    | writeOp data0 ioOk0 =>
      have hstep : stepTransport s (.writeOp data0 ioOk0) = (s, some notReadyError) := by
        simp [stepTransport, hr]
      simp only [runTransport, hstep]
      obtain ⟨ha, hb, hs, hz⟩ := ih s hc hr
      exact ⟨ha, hb, hs, by
        intro p hp data ioOk hpw
        simp only [List.zip_cons_cons, List.mem_cons] at hp
        cases hp with
        | inl he => rw [he]
        | inr he => exact hz p he data ioOk hpw⟩
    | closeOp =>
      have hstep : stepTransport s .closeOp = ({ s with ready := false }, none) := by
        simp [stepTransport, hc]
      simp only [runTransport, hstep]
      obtain ⟨ha, hb, hs, hz⟩ := ih { s with ready := false } hc rfl
      exact ⟨ha, hb, hs, by
        intro p hp data ioOk hpw
        simp only [List.zip_cons_cons, List.mem_cons] at hp
        cases hp with
        | inl he => rw [he] at hpw; exact absurd hpw (by simp)
        | inr he => exact hz p he data ioOk hpw⟩

/-- C10: a failed write (on a ready transport with an initialized writer)
drops the ready flag, keeps the command handle and returns the write error;
a close on a started transport drops the ready flag; a repeated `Connect` on
a started transport returns early without any state change; and from any
started, non-ready state, every subsequent operation sequence leaves the
transport non-ready with the command handle still present, writes no bytes
to the child stdin, and answers every `Write` with the not-ready connection
error. -/
theorem transport_write_after_failure :
    (∀ (s : TransportState) (data : List Nat), s.ready = true → s.writerInit = true →
      (stepTransport s (.writeOp data false)).1.ready = false ∧
      (stepTransport s (.writeOp data false)).1.cmdStarted = s.cmdStarted ∧
      (stepTransport s (.writeOp data false)).2 =
        some (.cliConnectionError "failed to write to subprocess stdin")) ∧
    (∀ s : TransportState, s.cmdStarted = true →
      (stepTransport s .closeOp).1.ready = false) ∧
    (∀ (s : TransportState) (spawnOk : Bool), s.cmdStarted = true →
      stepTransport s (.connectOp spawnOk) = (s, none)) ∧
    (∀ (s : TransportState) (op : TransportOp), (s.ready = true → s.cmdStarted = true) →
      (stepTransport s op).1.ready = true → (stepTransport s op).1.cmdStarted = true) ∧
    initialTransportState.ready = false ∧
    (∀ (ops : List TransportOp) (s : TransportState),
      s.cmdStarted = true → s.ready = false →
      (runTransport s ops).1.ready = false ∧ (runTransport s ops).1.cmdStarted = true ∧
      (runTransport s ops).1.stdinStream = s.stdinStream ∧
      ∀ p ∈ ops.zip (runTransport s ops).2,
        ∀ (data : List Nat) (ioOk : Bool), p.1 = .writeOp data ioOk →
          p.2 = some notReadyError) := by
  refine ⟨?_, ?_, ?_, fun s op h => stepTransport_ready_imp_started s op h, rfl,
    fun ops s hc hr => runTransport_notReady ops s hc hr⟩
  · intro s data hr hw
    simp [stepTransport, hr, hw]
  · intro s hc
    simp [stepTransport, hc]
  · intro s spawnOk hc
    simp [stepTransport, hc]

/-- C10 witness: the theorem applied to a concrete connected transport that
suffers a write failure and then sees a write, a connect and a close, plus a
further write: the later writes return the not-ready error and write
nothing. -/
theorem transport_write_after_failure_witness :
    (stepTransport ⟨true, true, true, none, []⟩ (.writeOp [97] false)).1.ready = false ∧
    (runTransport ⟨true, false, true,
        some (.cliConnectionError "failed to write to subprocess stdin"), []⟩
      [.writeOp [98] true, .connectOp true, .closeOp, .writeOp [99] true]).1.ready = false ∧
    (runTransport ⟨true, false, true,
        some (.cliConnectionError "failed to write to subprocess stdin"), []⟩
      [.writeOp [98] true, .connectOp true, .closeOp, .writeOp [99] true]).1.stdinStream =
      ([] : List Nat) :=
  ⟨(transport_write_after_failure.1 ⟨true, true, true, none, []⟩ [97] rfl rfl).1,
   (transport_write_after_failure.2.2.2.2.2
     [.writeOp [98] true, .connectOp true, .closeOp, .writeOp [99] true]
     ⟨true, false, true, some (.cliConnectionError "failed to write to subprocess stdin"), []⟩
     rfl rfl).1,
   (transport_write_after_failure.2.2.2.2.2
     [.writeOp [98] true, .connectOp true, .closeOp, .writeOp [99] true]
     ⟨true, false, true, some (.cliConnectionError "failed to write to subprocess stdin"), []⟩
     rfl rfl).2.2.1⟩

end ClaudeSDK
